import Mathlib

/-!
Verification of the Ukrainian-tag to MULTEXT-East MSD converter
(`src/tools/dictuk2multext.py`).  The Python source is shallowly embedded:
each Python function becomes a Lean function of the same name, the mutable
15-slot template becomes a `List String` transformed by explicit `set`
operations, and Python dict iteration (insertion ordered) becomes
`List.find?` over the literal key/value pair list.
-/

namespace DictUk2Multext

/-- Character-wise model of Python `str.upper` restricted to the alphabets the
tool can meet: ASCII letters and the Cyrillic block (basic range and the
extension range holding і, ї, є, ё and friends).  Other characters are kept
unchanged. -/
def pyUpperChar (c : Char) : Char :=
  if 'a' ≤ c && c ≤ 'z' then Char.ofNat (c.toNat - 32)
  else if 0x430 ≤ c.toNat && c.toNat ≤ 0x44F then Char.ofNat (c.toNat - 0x20)
  else if 0x450 ≤ c.toNat && c.toNat ≤ 0x45F then Char.ofNat (c.toNat - 0x50)
  else c

/-- The `str.maketrans("ІХСМ", "IXCM")` table of `is_roman`: Cyrillic letters
visually identical to Latin Roman-numeral letters are mapped to the Latin
ones; every other character is kept. -/
def translateCyr (c : Char) : Char :=
  if c = 'І' then 'I'
  else if c = 'Х' then 'X'
  else if c = 'С' then 'C'
  else if c = 'М' then 'M'
  else c

/-- All ways to consume between `0` and `max` copies of the character `c`
from the front of `s`; returns the list of possible remainders
(the semantics of the regex piece `c{0,max}`). -/
def consumeReps (c : Char) : Nat → List Char → List (List Char)
  | 0, s => [s]
  | max + 1, s =>
    match s with
    | [] => [[]]
    | d :: rest =>
      if d = c then s :: consumeReps c max rest
      else [s]

/-- Remainders after consuming an optional single character `c`
(the regex piece `c?`). -/
def consumeOpt (c : Char) (s : List Char) : List (List Char) :=
  match s with
  | [] => [[]]
  | d :: rest => if d = c then [s, rest] else [s]

/-- Remainder after consuming the literal two-character sequence, if present
(the regex pieces such as `CM`). -/
def consumeLit2 (a b : Char) (s : List Char) : List (List Char) :=
  match s with
  | x :: y :: rest => if x = a && y = b then [rest] else []
  | _ => []

/-- Remainders of the hundreds group `(CM|CD|D?C{0,3})`. -/
def romanHundreds (s : List Char) : List (List Char) :=
  consumeLit2 'C' 'M' s ++ consumeLit2 'C' 'D' s ++
    (consumeOpt 'D' s).flatMap (consumeReps 'C' 3)

/-- Remainders of the tens group `(XC|XL|L?X{0,3})`. -/
def romanTens (s : List Char) : List (List Char) :=
  consumeLit2 'X' 'C' s ++ consumeLit2 'X' 'L' s ++
    (consumeOpt 'L' s).flatMap (consumeReps 'X' 3)

/-- Remainders of the units group `(IX|IV|V?I{0,3})`. -/
def romanUnits (s : List Char) : List (List Char) :=
  consumeLit2 'I' 'X' s ++ consumeLit2 'I' 'V' s ++
    (consumeOpt 'V' s).flatMap (consumeReps 'I' 3)

/-- Remainders after matching the whole anchored body
`M{0,4}(CM|CD|D?C{0,3})(XC|XL|L?X{0,3})(IX|IV|V?I{0,3})`. -/
def romanRemainders (s : List Char) : List (List Char) :=
  ((((consumeReps 'M' 4 s).flatMap romanHundreds).flatMap romanTens).flatMap
    romanUnits)

/-- Python `re` semantics of the trailing `$` (no MULTILINE): the pattern
matches if some parse consumes the whole string, or all of it but one final
newline. -/
def romanMatches (s : List Char) : Bool :=
  (romanRemainders s).any (fun r => r = [] || r = ['\n'])

/-- Embedding of `is_roman`: uppercase, translate the Cyrillic homoglyphs,
then match the anchored Roman-numeral regex
`^M{0,4}(CM|CD|D?C{0,3})(XC|XL|L?X{0,3})(IX|IV|V?I{0,3})$`. -/
def is_roman (s : String) : Bool :=
  romanMatches ((s.toList.map pyUpperChar).map translateCyr)

/-- ASCII whitespace stripped by Python `float` before parsing. -/
def isPySpace (c : Char) : Bool :=
  c = ' ' || c = '\t' || c = '\n' || c = '\r' || c = '\x0b' || c = '\x0c'

/-- A digit group of a Python float literal: digits with single underscores
allowed strictly between digits.  Consumes the longest such group; returns
`none` if the input does not start with a digit. -/
def takeDigitGroup : List Char → Option (List Char)
  | c :: rest =>
    if c.isDigit then some (takeDigitGroupAux rest) else none
  | [] => none
where
  /-- Consume further `digit` or `_ digit` steps. -/
  takeDigitGroupAux : List Char → List Char
    | '_' :: d :: rest => if d.isDigit then takeDigitGroupAux rest else '_' :: d :: rest
    | d :: rest => if d.isDigit then takeDigitGroupAux rest else d :: rest
    | [] => []

/-- Optional exponent part `([eE][+-]?digits)` of a Python float literal;
returns the remainder on success, `none` when an `e` is present but broken. -/
def parseExponent : List Char → Option (List Char)
  | c :: rest =>
    if c = 'e' || c = 'E' then
      match rest with
      | d :: rest2 =>
        if d = '+' || d = '-' then takeDigitGroup rest2 else takeDigitGroup rest
      | [] => none
    else some (c :: rest)
  | [] => some []

/-- Mantissa of a Python float literal: `digits [. digits?]` or `. digits`. -/
def parseMantissa (s : List Char) : Option (List Char) :=
  match takeDigitGroup s with
  | some rest =>
    match rest with
    | '.' :: rest2 =>
      match takeDigitGroup rest2 with
      | some rest3 => some rest3
      | none => some rest2
    | _ => some rest
  | none =>
    match s with
    | '.' :: rest => takeDigitGroup rest
    | _ => none

/-- Case-insensitive comparison of a character list against an ASCII word. -/
def eqCaseInsensitive (s : List Char) (w : List Char) : Bool :=
  s.map Char.toLower = w

/-- Acceptance of Python `float(s)` on its ASCII grammar: optional
whitespace, optional sign, then a decimal mantissa with optional exponent or
one of the words `inf`, `infinity`, `nan` (case-insensitive). -/
def pyFloatAccepts (s : List Char) : Bool :=
  let t := (s.dropWhile isPySpace).reverse.dropWhile isPySpace |>.reverse
  let t2 := match t with
    | c :: rest => if c = '+' || c = '-' then rest else t
    | [] => []
  if eqCaseInsensitive t2 ['i','n','f'] then true
  else if eqCaseInsensitive t2 ['i','n','f','i','n','i','t','y'] then true
  else if eqCaseInsensitive t2 ['n','a','n'] then true
  else
    match parseMantissa t2 with
    | some rest =>
      match parseExponent rest with
      | some [] => true
      | _ => false
    | none => false

/-- Embedding of `is_number`: whether Python `float(lemma)` succeeds. -/
def is_number (s : String) : Bool :=
  pyFloatAccepts s.toList

/-- Write `s` into slot `i` when a value is present, leave the template
untouched otherwise.  This renders a Python `if`/`elif` chain that either
assigns one value to `msd[i]` or falls through without touching it. -/
def setOpt (msd : List String) (i : Nat) (o : Option String) : List String :=
  match o with
  | some s => msd.set i s
  | none => msd

/-- The 15-slot template, every position initialised to the placeholder. -/
def init_msd : List String := List.replicate 15 "-"

/-- The seven-case priority list shared by the noun, adjective, pronoun and
numeral blocks: `v_naz`→n, `v_rod`→g, `v_dav`→d, `v_zna`→a, `v_oru`→i,
`v_mis`→l, `v_kly`→v, in that fixed order. -/
def case_map : List (String × String) :=
  [("v_naz", "n"), ("v_rod", "g"), ("v_dav", "d"),
   ("v_zna", "a"), ("v_oru", "i"), ("v_mis", "l"), ("v_kly", "v")]

/-- The three-gender priority list `m`, `f`, `n`. -/
def gender_map3 : List (String × String) := [("m", "m"), ("f", "f"), ("n", "n")]

/-- The `pos_map` dictionary of `tags_to_msd` with its `.get(base_pos, 'X')`
default. -/
def pos_map (base_pos : String) : String :=
  if base_pos = "noun" then "N"
  else if base_pos = "verb" then "V"
  else if base_pos = "adj" then "A"
  else if base_pos = "adv" then "R"
  else if base_pos = "advp" then "V"
  else if base_pos = "adjp" then "A"
  else if base_pos = "prep" then "S"
  else if base_pos = "conj" then "C"
  else if base_pos = "part" then "Q"
  else if base_pos = "intj" then "I"
  else if base_pos = "numr" then "M"
  else if base_pos = "noninfl" then "X"
  else if base_pos = "onomat" then "I"
  else if base_pos = "insert" then "X"
  else "X"

/-- Position 0 of the template: numeral+adjective wins, then the pronoun
marker, then the first tag through `pos_map` (empty bundle gives the empty
base tag). -/
def pos0_of (tags : List String) : String :=
  if tags.contains "numr" && tags.contains "adj" then "M"
  else if tags.contains "pron" then "P"
  else pos_map (tags.headD "")

/-- Noun block: positions 1-5 (type, gender, number, case, animacy). -/
def process_noun (msd : List String) (tag_set : List String) : List String :=
  let msd := msd.set 1
    (if ["prop", "geo", "fname", "lname", "pname"].any
        (fun t => tag_set.contains t) then "p" else "c")
  let msd := setOpt msd 2
    (if tag_set.contains "p" &&
        !(["m", "f", "n"].any (fun g => tag_set.contains g)) then some "-"
     else if tag_set.contains "m" then some "m"
     else if tag_set.contains "f" then some "f"
     else if tag_set.contains "n" then some "n"
     else if tag_set.contains "c" then some "c"
     else none)
  let msd := msd.set 3
    (if tag_set.contains "p" || tag_set.contains "ns" then "p" else "s")
  let msd := setOpt msd 4
    (if tag_set.contains "nv" then some "-"
     else (case_map.find? (fun p => tag_set.contains p.1)).map Prod.snd)
  let msd := setOpt msd 5
    (if tag_set.contains "anim" || tag_set.contains "unanim" then some "y"
     else if tag_set.contains "inanim" then some "n"
     else none)
  msd

/-- Verb block: positions 1-7 (type, aspect, vform, tense, person, number,
gender). -/
def process_verb (msd : List String) (tag_set : List String)
    (base_pos : String) : List String :=
  let msd := msd.set 1 "m"
  let msd := msd.set 2
    (if tag_set.contains "imperf" then "p"
     else if tag_set.contains "perf" then "e"
     else "b")
  let msd := msd.set 3
    (if tag_set.contains "impers" then "o"
     else if tag_set.contains "inf" then "n"
     else if tag_set.contains "impr" then "m"
     else if tag_set.contains "advp" || base_pos = "advp" then "g"
     else "i")
  let msd := setOpt msd 4
    (([("pres", "p"), ("futr", "f"), ("past", "s")].find?
        (fun p => tag_set.contains p.1)).map Prod.snd)
  let msd := setOpt msd 5
    (([("1", "1"), ("2", "2"), ("3", "3")].find?
        (fun p => tag_set.contains p.1)).map Prod.snd)
  let msd := setOpt msd 6
    (if tag_set.contains "p" then some "p"
     else if tag_set.contains "s" then some "s"
     else none)
  let msd := setOpt msd 7
    ((gender_map3.find? (fun p => tag_set.contains p.1)).map Prod.snd)
  msd

/-- Adjective block: positions 1-10 (type, degree, gender, number, case,
definiteness, animacy on accusative, and the participle-only aspect, voice
and tense).  The degree test `msd[1] == 'f'` of the source reads the value
just written at position 1, which is the local `t1`. -/
def process_adjective (msd : List String) (tag_set : List String)
    (base_pos : String) (is_adjp : Bool) : List String :=
  let t1 := if is_adjp then "p"
            else if tag_set.contains "ord" then "o"
            else "f"
  let msd := msd.set 1 t1
  let msd := setOpt msd 2
    (if tag_set.contains "compc" then some "c"
     else if tag_set.contains "comps" then some "s"
     else if t1 = "f" then some "p"
     else none)
  let msd := setOpt msd 3
    (([("m", "m"), ("f", "f"), ("n", "n"), ("c", "c")].find?
        (fun p => tag_set.contains p.1)).map Prod.snd)
  let msd := msd.set 4 (if tag_set.contains "p" then "p" else "s")
  let msd := setOpt msd 5
    (if tag_set.contains "nv" then some "-"
     else (case_map.find? (fun p => tag_set.contains p.1)).map Prod.snd)
  let msd := setOpt msd 6
    (if tag_set.contains "long" then some "f"
     else if tag_set.contains "short" then some "s"
     else none)
  let msd := setOpt msd 7
    (if tag_set.contains "v_zna" then
       (if tag_set.contains "ranim" then some "y"
        else if tag_set.contains "rinanim" then some "n"
        else none)
     else none)
  let msd := setOpt msd 8
    (if is_adjp then
       (if tag_set.contains "imperf" then some "p"
        else if tag_set.contains "perf" then some "e"
        else none)
     else none)
  let msd := setOpt msd 9
    (if is_adjp then
       (if tag_set.contains "actv" then some "a"
        else if tag_set.contains "pasv" then some "p"
        else none)
     else none)
  let msd := setOpt msd 10
    (if is_adjp then
       (if tag_set.contains "pres" then some "p"
        else if tag_set.contains "past" then some "s"
        else none)
     else none)
  msd

/-- Pronoun block: positions 1-8 (type, referent type, person, gender with
common-gender default, animacy, number, case, syntactic type). -/
def process_pronoun (msd : List String) (tag_set : List String) :
    List String :=
  let msd := setOpt msd 1
    (([("pers", "p"), ("refl", "x"), ("pos", "s"), ("dem", "d"),
       ("int", "q"), ("rel", "r"), ("neg", "z"), ("ind", "i"),
       ("gen", "g"), ("emph", "h")].find?
        (fun p => tag_set.contains p.1)).map Prod.snd)
  let msd := setOpt msd 2 (if tag_set.contains "pos" then some "s" else none)
  let msd := setOpt msd 3
    (([("1", "1"), ("2", "2"), ("3", "3")].find?
        (fun p => tag_set.contains p.1)).map Prod.snd)
  let msd := msd.set 4
    (((gender_map3.find? (fun p => tag_set.contains p.1)).map Prod.snd).getD "c")
  let msd := setOpt msd 5
    (if tag_set.contains "anim" || tag_set.contains "unanim" then some "y"
     else if tag_set.contains "inanim" then some "n"
     else none)
  let msd := msd.set 6 (if tag_set.contains "p" then "p" else "s")
  let msd := setOpt msd 7
    (if tag_set.contains "nv" then some "-"
     else (case_map.find? (fun p => tag_set.contains p.1)).map Prod.snd)
  let msd := setOpt msd 8
    (([("noun", "n"), ("adj", "a"), ("adv", "r")].find?
        (fun p => tag_set.contains p.1)).map Prod.snd)
  msd

/-- Adverb block: position 1 only (degree, with positive as default). -/
def process_adverb (msd : List String) (tag_set : List String) :
    List String :=
  msd.set 1
    (if tag_set.contains "compc" then "c"
     else if tag_set.contains "comps" then "s"
     else "p")

/-- Conjunction block: positions 1-2 (type, formation from the lemma). -/
def process_conjunction (msd : List String) (tag_set : List String)
    (lem : String) : List String :=
  let msd := msd.set 1 (if tag_set.contains "coord" then "c" else "s")
  let msd := msd.set 2
    (if lem.toList.contains '-' || lem.toList.contains ' ' then "c" else "s")
  msd

/-- Numeral block: positions 1-6 (form from the lemma, type from the
numeral+adjective flag, gender, number with plural default, case, animacy). -/
def process_numeral (msd : List String) (tag_set : List String)
    (lem : String) (is_adj : Bool) : List String :=
  let msd := msd.set 1
    (if is_number lem then "d"
     else if is_roman lem then "r"
     else "l")
  let msd := msd.set 2 (if is_adj then "o" else "c")
  let msd := setOpt msd 3
    ((gender_map3.find? (fun p => tag_set.contains p.1)).map Prod.snd)
  let msd := msd.set 4 (if tag_set.contains "s" then "s" else "p")
  let msd := setOpt msd 5
    (if tag_set.contains "nv" then some "-"
     else (case_map.find? (fun p => tag_set.contains p.1)).map Prod.snd)
  let msd := setOpt msd 6
    (if tag_set.contains "anim" then some "y"
     else if tag_set.contains "inanim" then some "n"
     else none)
  msd

/-- The static case-government dictionary of `_process_preposition`,
looked up by exact lemma; `none` models a missing key. -/
def case_government (lem : String) : Option String :=
  if lem = "завдяки" then some "d"
  else if lem = "всупереч" then some "d"
  else if lem = "усупереч" then some "d"
  else if lem = "наперекір" then some "d"
  else if lem = "услід" then some "d"
  else if lem = "назустріч" then some "d"
  else if lem = "напротивагу" then some "d"
  else if lem = "во" then some "a"
  else if lem = "ві" then some "a"
  else if lem = "про" then some "a"
  else if lem = "через" then some "a"
  else if lem = "крізь" then some "a"
  else if lem = "скрізь" then some "a"
  else if lem = "об" then some "a"
  else if lem = "поза" then some "a"
  else if lem = "між" then some "a"
  else if lem = "незважаючи" then some "a"
  else if lem = "згідно з" then some "i"
  else if lem = "надо" then some "i"
  else if lem = "наді" then some "i"
  else if lem = "передо" then some "i"
  else if lem = "переді" then some "i"
  else if lem = "при" then some "l"
  else if lem = "вві" then some "l"
  else if lem = "уві" then some "l"
  else if lem = "в" then some "agl"
  else if lem = "у" then some "agl"
  else if lem = "ув" then some "agl"
  else if lem = "попри" then some "agl"
  else if lem = "за" then some "ai"
  else if lem = "над" then some "ai"
  else if lem = "перед" then some "ai"
  else if lem = "понад" then some "ai"
  else if lem = "попід" then some "ai"
  else if lem = "під" then some "ai"
  else if lem = "на" then some "al"
  else if lem = "о" then some "al"
  else if lem = "по" then some "al"
  else if lem = "з" then some "gi"
  else if lem = "із" then some "gi"
  else if lem = "меж" then some "agi"
  else if lem = "межи" then some "agi"
  else if lem = "поміж" then some "agi"
  else if lem = "поперед" then some "agi"
  else if lem = "повз" then some "ag"
  else none

/-- Preposition block: positions 1-3 (fixed type, formation from a hyphen in
the lemma, case government with genitive default).  The case-government
string may hold several case letters, so slot 3 can receive a string longer
than one character. -/
def process_preposition (msd : List String) (tag_set : List String)
    (lem : String) : List String :=
  let msd := msd.set 1 "p"
  let msd := msd.set 2 (if lem.toList.contains '-' then "c" else "s")
  let msd := msd.set 3 ((case_government lem).getD "g")
  msd

/-- Python `str.rstrip('-')`: drop every trailing `-` character. -/
def rstripDash : List Char → List Char
  | [] => []
  | c :: cs =>
    match rstripDash cs with
    | [] => if c = '-' then [] else [c]
    | r => c :: r

/-- The rendering step of `tags_to_msd`: concatenate the template slots,
strip trailing placeholders, and fall back to a single placeholder when the
result would be empty. -/
def render (msd : List String) : String :=
  let stripped := rstripDash (msd.map String.toList).flatten
  if stripped = [] then "-" else String.mk stripped

/-- Embedding of `tags_to_msd`: fill the 15-slot template from the tag
bundle and the lemma, then render it. -/
def tags_to_msd (tags : List String) (lem : String) : String :=
  let tag_set := tags
  let is_adj := tag_set.contains "adj"
  let is_adjp := tag_set.contains "adjp"
  let base_pos := tags.headD ""
  let pos0 := pos0_of tags
  let msd := init_msd.set 0 pos0
  let msd :=
    if pos0 = "N" then process_noun msd tag_set
    else if pos0 = "V" then process_verb msd tag_set base_pos
    else if pos0 = "A" then process_adjective msd tag_set base_pos is_adjp
    else if pos0 = "P" then process_pronoun msd tag_set
    else if pos0 = "R" then process_adverb msd tag_set
    else if pos0 = "C" then process_conjunction msd tag_set lem
    else if pos0 = "M" then process_numeral msd tag_set lem is_adj
    else if pos0 = "S" then process_preposition msd tag_set lem
    else msd
  render msd

/-! ### Basic lemmas about the template operations and the renderer -/

theorem length_setOpt (msd : List String) (i : Nat) (o : Option String) :
    (setOpt msd i o).length = msd.length := by
  cases o <;> simp [setOpt]

theorem getElem?_setOpt_ne {i j : Nat} (h : i ≠ j) (msd : List String)
    (o : Option String) : (setOpt msd i o)[j]? = msd[j]? := by
  cases o <;> simp [setOpt, List.getElem?_set_ne h]

theorem rstripDash_length_le (l : List Char) :
    (rstripDash l).length ≤ l.length := by
  induction l with
  | nil => simp [rstripDash]
  | cons c cs ih =>
    cases h : rstripDash cs with
    | nil =>
      simp only [rstripDash, h]
      split <;> simp
    | cons a r =>
      rw [h] at ih
      simp only [rstripDash, h, List.length_cons]
      exact Nat.succ_le_succ ih

theorem rstripDash_replicate (n : Nat) :
    rstripDash (List.replicate n '-') = [] := by
  induction n with
  | zero => rfl
  | succ k ih => simp [List.replicate_succ, rstripDash, ih]

theorem rstripDash_append_replicate (l : List Char) (n : Nat) :
    rstripDash (l ++ List.replicate n '-') = rstripDash l := by
  induction l with
  | nil => simp [rstripDash_replicate, rstripDash]
  | cons c cs ih => simp only [List.cons_append, rstripDash, List.append_eq, ih]

theorem rstripDash_getElem? (l : List Char) (i : Nat) (c : Char)
    (hi : l[i]? = some c) (hc : c ≠ '-') :
    ∀ j, j ≤ i → (rstripDash l)[j]? = l[j]? := by
  induction l generalizing i with
  | nil => simp at hi
  | cons a t ih =>
    intro j hj
    cases i with
    | zero =>
      interval_cases j
      simp only [List.getElem?_cons_zero, Option.some.injEq] at hi
      subst hi
      simp only [rstripDash]
      cases h : rstripDash t <;> simp [hc]
    | succ k =>
      simp only [List.getElem?_cons_succ] at hi
      have hne : rstripDash t ≠ [] := by
        intro hnil
        have := ih k hi k le_rfl
        rw [hnil] at this
        simp [hi] at this
      cases j with
      | zero =>
        simp only [rstripDash]
        cases h : rstripDash t with
        | nil => exact absurd h hne
        | cons b r => simp
      | succ m =>
        have hm : m ≤ k := Nat.le_of_succ_le_succ hj
        simp only [rstripDash]
        cases h : rstripDash t with
        | nil => exact absurd h hne
        | cons b r =>
          have := ih k hi m hm
          rw [h] at this
          simpa using this

theorem render_ne_empty (msd : List String) : render msd ≠ "" := by
  simp only [render]
  split
  · decide
  · rename_i h
    intro heq
    exact h (congrArg String.toList heq)

theorem render_length_pos (msd : List String) : 1 ≤ (render msd).length := by
  simp only [render]
  split
  · decide
  · rename_i h
    cases hs : rstripDash (msd.map String.toList).flatten with
    | nil => exact absurd hs h
    | cons a r => simp [hs, String.length]

theorem render_toList_getElem? (msd : List String) (i : Nat) (c : Char)
    (hi : ((msd.map String.toList).flatten)[i]? = some c) (hc : c ≠ '-') :
    ∀ j, j ≤ i →
      (render msd).toList[j]? = ((msd.map String.toList).flatten)[j]? := by
  intro j hj
  have hkeep := rstripDash_getElem? _ i c hi hc
  have hne : rstripDash (msd.map String.toList).flatten ≠ [] := by
    intro hnil
    have := hkeep i le_rfl
    rw [hnil] at this
    simp [hi] at this
  simp only [render]
  rw [if_neg hne]
  exact hkeep j hj

/-! ### Slots outside an encoder's written range are untouched -/

theorem process_noun_outside (msd ts : List String) (j : Nat)
    (hj : j = 0 ∨ 11 ≤ j) : (process_noun msd ts)[j]? = msd[j]? := by
  simp only [process_noun,
    getElem?_setOpt_ne (show 2 ≠ j by omega),
    getElem?_setOpt_ne (show 4 ≠ j by omega),
    getElem?_setOpt_ne (show 5 ≠ j by omega),
    List.getElem?_set_ne (show 1 ≠ j by omega),
    List.getElem?_set_ne (show 3 ≠ j by omega)]

theorem process_verb_outside (msd ts : List String) (bp : String) (j : Nat)
    (hj : j = 0 ∨ 11 ≤ j) : (process_verb msd ts bp)[j]? = msd[j]? := by
  simp only [process_verb,
    getElem?_setOpt_ne (show 4 ≠ j by omega),
    getElem?_setOpt_ne (show 5 ≠ j by omega),
    getElem?_setOpt_ne (show 6 ≠ j by omega),
    getElem?_setOpt_ne (show 7 ≠ j by omega),
    List.getElem?_set_ne (show 1 ≠ j by omega),
    List.getElem?_set_ne (show 2 ≠ j by omega),
    List.getElem?_set_ne (show 3 ≠ j by omega)]

theorem process_adjective_outside (msd ts : List String) (bp : String)
    (adjp : Bool) (j : Nat) (hj : j = 0 ∨ 11 ≤ j) :
    (process_adjective msd ts bp adjp)[j]? = msd[j]? := by
  simp only [process_adjective,
    getElem?_setOpt_ne (show 2 ≠ j by omega),
    getElem?_setOpt_ne (show 3 ≠ j by omega),
    getElem?_setOpt_ne (show 5 ≠ j by omega),
    getElem?_setOpt_ne (show 6 ≠ j by omega),
    getElem?_setOpt_ne (show 7 ≠ j by omega),
    getElem?_setOpt_ne (show 8 ≠ j by omega),
    getElem?_setOpt_ne (show 9 ≠ j by omega),
    getElem?_setOpt_ne (show 10 ≠ j by omega),
    List.getElem?_set_ne (show 1 ≠ j by omega),
    List.getElem?_set_ne (show 4 ≠ j by omega)]

theorem process_pronoun_outside (msd ts : List String) (j : Nat)
    (hj : j = 0 ∨ 11 ≤ j) : (process_pronoun msd ts)[j]? = msd[j]? := by
  simp only [process_pronoun,
    getElem?_setOpt_ne (show 1 ≠ j by omega),
    getElem?_setOpt_ne (show 2 ≠ j by omega),
    getElem?_setOpt_ne (show 3 ≠ j by omega),
    getElem?_setOpt_ne (show 5 ≠ j by omega),
    getElem?_setOpt_ne (show 7 ≠ j by omega),
    getElem?_setOpt_ne (show 8 ≠ j by omega),
    List.getElem?_set_ne (show 4 ≠ j by omega),
    List.getElem?_set_ne (show 6 ≠ j by omega)]

theorem process_adverb_outside (msd ts : List String) (j : Nat)
    (hj : j = 0 ∨ 11 ≤ j) : (process_adverb msd ts)[j]? = msd[j]? := by
  simp only [process_adverb, List.getElem?_set_ne (show 1 ≠ j by omega)]

theorem process_conjunction_outside (msd ts : List String) (lem : String)
    (j : Nat) (hj : j = 0 ∨ 11 ≤ j) :
    (process_conjunction msd ts lem)[j]? = msd[j]? := by
  simp only [process_conjunction,
    List.getElem?_set_ne (show 1 ≠ j by omega),
    List.getElem?_set_ne (show 2 ≠ j by omega)]

theorem process_numeral_outside (msd ts : List String) (lem : String)
    (b : Bool) (j : Nat) (hj : j = 0 ∨ 11 ≤ j) :
    (process_numeral msd ts lem b)[j]? = msd[j]? := by
  simp only [process_numeral,
    getElem?_setOpt_ne (show 3 ≠ j by omega),
    getElem?_setOpt_ne (show 5 ≠ j by omega),
    getElem?_setOpt_ne (show 6 ≠ j by omega),
    List.getElem?_set_ne (show 1 ≠ j by omega),
    List.getElem?_set_ne (show 2 ≠ j by omega),
    List.getElem?_set_ne (show 4 ≠ j by omega)]

theorem process_preposition_outside (msd ts : List String) (lem : String)
    (j : Nat) (hj : j = 0 ∨ 4 ≤ j) :
    (process_preposition msd ts lem)[j]? = msd[j]? := by
  simp only [process_preposition,
    List.getElem?_set_ne (show 1 ≠ j by omega),
    List.getElem?_set_ne (show 2 ≠ j by omega),
    List.getElem?_set_ne (show 3 ≠ j by omega)]

/-- The whole dispatch step of `tags_to_msd` never touches position 0 nor any
position from 11 on. -/
theorem dispatch_outside (p0 : String) (msd ts : List String)
    (lem bp : String) (adjp adjf : Bool) (j : Nat) (hj : j = 0 ∨ 11 ≤ j) :
    (if p0 = "N" then process_noun msd ts
     else if p0 = "V" then process_verb msd ts bp
     else if p0 = "A" then process_adjective msd ts bp adjp
     else if p0 = "P" then process_pronoun msd ts
     else if p0 = "R" then process_adverb msd ts
     else if p0 = "C" then process_conjunction msd ts lem
     else if p0 = "M" then process_numeral msd ts lem adjf
     else if p0 = "S" then process_preposition msd ts lem
     else msd)[j]? = msd[j]? := by
  split_ifs
  · exact process_noun_outside msd ts j hj
  · exact process_verb_outside msd ts bp j hj
  · exact process_adjective_outside msd ts bp adjp j hj
  · exact process_pronoun_outside msd ts j hj
  · exact process_adverb_outside msd ts j hj
  · exact process_conjunction_outside msd ts lem j hj
  · exact process_numeral_outside msd ts lem adjf j hj
  · exact process_preposition_outside msd ts lem j
      (by rcases hj with h | h <;> omega)
  · rfl

/-! ### Position 0 of the rendered code -/

theorem ite_mem_str {c : Prop} [Decidable c] {a b : String} {L : List String}
    (ha : a ∈ L) (hb : b ∈ L) : (if c then a else b) ∈ L := by
  split <;> assumption

theorem pos_map_mem (s : String) :
    pos_map s ∈ ["N", "V", "A", "P", "R", "C", "M", "S", "Q", "I", "X"] := by
  unfold pos_map
  repeat' apply ite_mem_str
  all_goals decide

theorem pos0_of_mem (tags : List String) :
    pos0_of tags ∈
      ["N", "V", "A", "P", "R", "C", "M", "S", "Q", "I", "X"] := by
  unfold pos0_of
  apply ite_mem_str (by decide)
  apply ite_mem_str (by decide)
  exact pos_map_mem _

theorem pos0_of_length (tags : List String) : (pos0_of tags).length = 1 := by
  have h := pos0_of_mem tags
  simp only [List.mem_cons, List.not_mem_nil, or_false] at h
  rcases h with h | h | h | h | h | h | h | h | h | h | h <;> rw [h] <;> rfl

theorem init_set_getElem0 (p : String) : (init_msd.set 0 p)[0]? = some p := by
  simp [init_msd]

theorem render_head (msd : List String) (s : String) (c : Char)
    (h0 : msd[0]? = some s) (hs : s.toList = [c]) (hc : c ≠ '-') :
    (render msd).toList[0]? = some c := by
  have hflat : ((msd.map String.toList).flatten)[0]? = some c := by
    cases msd with
    | nil => simp at h0
    | cons a rest =>
      simp only [List.getElem?_cons_zero, Option.some.injEq] at h0
      subst h0
      have ha : a.data = [c] := hs
      simp [ha]
  rw [render_toList_getElem? msd 0 c hflat hc 0 le_rfl, hflat]

/-- Position 0 of the rendered code is the character of the classifier
output, for any bundle and lemma. -/
theorem tags_to_msd_head (tags : List String) (lem : String) (c : Char)
    (hp : pos0_of tags = String.mk [c]) (hc : c ≠ '-') :
    (tags_to_msd tags lem).toList[0]? = some c := by
  simp only [tags_to_msd]
  apply render_head _ (pos0_of tags) c _ (by rw [hp]; rfl) hc
  rw [dispatch_outside _ _ _ _ _ _ _ 0 (Or.inl rfl)]
  exact init_set_getElem0 _

/-! ### Length bounds for the rendered code -/

/-- Every value an optional write can carry is a single character. -/
abbrev OptShort (o : Option String) : Prop :=
  ∀ s : String, o = some s → s.length ≤ 1

/-- Every slot of the template holds at most one character. -/
abbrev ShortAll (msd : List String) : Prop :=
  ∀ (j : Nat) (s : String), msd[j]? = some s → s.length ≤ 1

theorem optShort_none : OptShort none := by
  intro s h
  exact absurd h (by simp)

theorem optShort_some {s : String} (hs : s.length ≤ 1) : OptShort (some s) := by
  intro t ht
  cases Option.some.inj ht
  exact hs

theorem optShort_ite {c : Prop} [Decidable c] {o1 o2 : Option String}
    (h1 : OptShort o1) (h2 : OptShort o2) :
    OptShort (if c then o1 else o2) := by
  split <;> assumption

theorem ite_len {c : Prop} [Decidable c] {a b : String}
    (ha : a.length ≤ 1) (hb : b.length ≤ 1) :
    (if c then a else b).length ≤ 1 := by
  split <;> assumption

theorem optShort_find_snd (l : List (String × String))
    (hl : ∀ p ∈ l, (Prod.snd p).length ≤ 1) (f : String × String → Bool) :
    OptShort ((l.find? f).map Prod.snd) := by
  intro s hs
  obtain ⟨p, hp, rfl⟩ := Option.map_eq_some'.mp hs
  exact hl p (List.mem_of_find?_eq_some hp)

theorem getD_len {o : Option String} {d : String} (ho : OptShort o)
    (hd : d.length ≤ 1) : (o.getD d).length ≤ 1 := by
  cases o with
  | none => exact hd
  | some s => exact ho s rfl

theorem shortAll_set {msd : List String} {s : String} {i : Nat}
    (h : ShortAll msd) (hs : s.length ≤ 1) : ShortAll (msd.set i s) := by
  intro j t hjt
  rw [List.getElem?_set] at hjt
  split_ifs at hjt
  · cases Option.some.inj hjt
    exact hs
  · exact h j t hjt

theorem shortAll_setOpt {msd : List String} {o : Option String} {i : Nat}
    (h : ShortAll msd) (ho : OptShort o) : ShortAll (setOpt msd i o) := by
  cases o with
  | none => exact h
  | some s => exact shortAll_set h (ho s rfl)

theorem shortAll_init_set {p : String} (hp : p.length ≤ 1) :
    ShortAll (init_msd.set 0 p) := by
  apply shortAll_set _ hp
  intro j s hjs
  rw [init_msd, List.getElem?_replicate] at hjs
  split at hjs
  · cases Option.some.inj hjs
    decide
  · exact absurd hjs (by simp)

theorem init_set_dash (p : String) (j : Nat) (hj : 1 ≤ j) (s : String)
    (h : (init_msd.set 0 p)[j]? = some s) : s = "-" := by
  rw [List.getElem?_set_ne (by omega), init_msd,
    List.getElem?_replicate] at h
  split at h
  · exact (Option.some.inj h).symm
  · exact absurd h (by simp)

theorem process_noun_short (msd ts : List String) (h : ShortAll msd) :
    ShortAll (process_noun msd ts) := by
  unfold process_noun
  refine shortAll_setOpt (shortAll_setOpt (shortAll_set (shortAll_setOpt
    (shortAll_set h ?_) ?_) ?_) ?_) ?_
  · exact ite_len (by decide) (by decide)
  · repeat' apply optShort_ite
    all_goals first
      | exact optShort_none
      | exact optShort_some (by decide)
  · exact ite_len (by decide) (by decide)
  · repeat' apply optShort_ite
    all_goals first
      | exact optShort_some (by decide)
      | exact optShort_find_snd _ (by decide) _
  · repeat' apply optShort_ite
    all_goals first
      | exact optShort_none
      | exact optShort_some (by decide)

theorem process_verb_short (msd ts : List String) (bp : String)
    (h : ShortAll msd) : ShortAll (process_verb msd ts bp) := by
  unfold process_verb
  refine shortAll_setOpt (shortAll_setOpt (shortAll_setOpt (shortAll_setOpt
    (shortAll_set (shortAll_set (shortAll_set h ?_) ?_) ?_) ?_) ?_) ?_) ?_
  · decide
  · exact ite_len (by decide) (ite_len (by decide) (by decide))
  · repeat' apply ite_len
    all_goals decide
  · exact optShort_find_snd _ (by decide) _
  · exact optShort_find_snd _ (by decide) _
  · repeat' apply optShort_ite
    all_goals first
      | exact optShort_none
      | exact optShort_some (by decide)
  · exact optShort_find_snd _ (by decide) _

theorem process_adjective_short (msd ts : List String) (bp : String)
    (adjp : Bool) (h : ShortAll msd) :
    ShortAll (process_adjective msd ts bp adjp) := by
  unfold process_adjective
  refine shortAll_setOpt (shortAll_setOpt (shortAll_setOpt (shortAll_setOpt
    (shortAll_setOpt (shortAll_setOpt (shortAll_set (shortAll_setOpt
    (shortAll_setOpt (shortAll_set h ?_) ?_) ?_) ?_) ?_) ?_) ?_) ?_) ?_) ?_
  · repeat' apply ite_len
    all_goals decide
  · repeat' apply optShort_ite
    all_goals first
      | exact optShort_none
      | exact optShort_some (by decide)
  · exact optShort_find_snd _ (by decide) _
  · exact ite_len (by decide) (by decide)
  · repeat' apply optShort_ite
    all_goals first
      | exact optShort_some (by decide)
      | exact optShort_find_snd _ (by decide) _
  · repeat' apply optShort_ite
    all_goals first
      | exact optShort_none
      | exact optShort_some (by decide)
  · repeat' apply optShort_ite
    all_goals first
      | exact optShort_none
      | exact optShort_some (by decide)
  · repeat' apply optShort_ite
    all_goals first
      | exact optShort_none
      | exact optShort_some (by decide)
  · repeat' apply optShort_ite
    all_goals first
      | exact optShort_none
      | exact optShort_some (by decide)
  · repeat' apply optShort_ite
    all_goals first
      | exact optShort_none
      | exact optShort_some (by decide)

theorem process_pronoun_short (msd ts : List String) (h : ShortAll msd) :
    ShortAll (process_pronoun msd ts) := by
  unfold process_pronoun
  refine shortAll_setOpt (shortAll_setOpt (shortAll_set (shortAll_setOpt
    (shortAll_set (shortAll_setOpt (shortAll_setOpt (shortAll_setOpt
    h ?_) ?_) ?_) ?_) ?_) ?_) ?_) ?_
  · exact optShort_find_snd _ (by decide) _
  · repeat' apply optShort_ite
    all_goals first
      | exact optShort_none
      | exact optShort_some (by decide)
  · exact optShort_find_snd _ (by decide) _
  · exact getD_len (optShort_find_snd _ (by decide) _) (by decide)
  · repeat' apply optShort_ite
    all_goals first
      | exact optShort_none
      | exact optShort_some (by decide)
  · exact ite_len (by decide) (by decide)
  · repeat' apply optShort_ite
    all_goals first
      | exact optShort_some (by decide)
      | exact optShort_find_snd _ (by decide) _
  · exact optShort_find_snd _ (by decide) _

theorem process_adverb_short (msd ts : List String) (h : ShortAll msd) :
    ShortAll (process_adverb msd ts) := by
  unfold process_adverb
  refine shortAll_set h ?_
  repeat' apply ite_len
  all_goals decide

theorem process_conjunction_short (msd ts : List String) (lem : String)
    (h : ShortAll msd) : ShortAll (process_conjunction msd ts lem) := by
  unfold process_conjunction
  refine shortAll_set (shortAll_set h ?_) ?_
  · exact ite_len (by decide) (by decide)
  · exact ite_len (by decide) (by decide)

theorem process_numeral_short (msd ts : List String) (lem : String)
    (b : Bool) (h : ShortAll msd) :
    ShortAll (process_numeral msd ts lem b) := by
  unfold process_numeral
  refine shortAll_setOpt (shortAll_setOpt (shortAll_set (shortAll_setOpt
    (shortAll_set (shortAll_set h ?_) ?_) ?_) ?_) ?_) ?_
  · repeat' apply ite_len
    all_goals decide
  · exact ite_len (by decide) (by decide)
  · exact optShort_find_snd _ (by decide) _
  · exact ite_len (by decide) (by decide)
  · repeat' apply optShort_ite
    all_goals first
      | exact optShort_some (by decide)
      | exact optShort_find_snd _ (by decide) _
  · repeat' apply optShort_ite
    all_goals first
      | exact optShort_none
      | exact optShort_some (by decide)

theorem optShort3_ite {c : Prop} [Decidable c] {o1 o2 : Option String}
    (h1 : ∀ s : String, o1 = some s → s.length ≤ 3)
    (h2 : ∀ s : String, o2 = some s → s.length ≤ 3) :
    ∀ s : String, (if c then o1 else o2) = some s → s.length ≤ 3 := by
  split <;> assumption

theorem sum_take_len_le (msd : List String) (k : Nat) (h : ShortAll msd) :
    ((msd.take k).map String.length).sum ≤ k := by
  have h1 : ((msd.take k).map String.length).sum
      ≤ ((msd.take k).map String.length).length • 1 := by
    apply List.sum_le_card_nsmul
    intro x hx
    obtain ⟨s, hs, rfl⟩ := List.mem_map.mp hx
    obtain ⟨n, hn⟩ := List.mem_iff_getElem?.mp (List.mem_of_mem_take hs)
    exact h n s hn
  have h2 : ((msd.take k).map String.length).length ≤ k := by
    simp [List.length_take]
  calc ((msd.take k).map String.length).sum
      ≤ ((msd.take k).map String.length).length • 1 := h1
    _ = ((msd.take k).map String.length).length := by simp
    _ ≤ k := h2

theorem all_dash_flatten (l : List String) (h : ∀ s ∈ l, s = "-") :
    (l.map String.toList).flatten = List.replicate l.length '-' := by
  induction l with
  | nil => rfl
  | cons a t ih =>
    have ha : a = "-" := h a (List.mem_cons_self a t)
    subst ha
    rw [List.map_cons, List.flatten_cons, List.length_cons,
      List.replicate_succ, ih (fun s hs => h s (List.mem_cons_of_mem _ hs))]
    rfl

theorem render_length_le (msd : List String) (k L : Nat) (hL : 1 ≤ L)
    (hd : ∀ j, k ≤ j → ∀ s : String, msd[j]? = some s → s = "-")
    (hs : ((msd.take k).map String.length).sum ≤ L) :
    (render msd).length ≤ L := by
  have hdash : ∀ s ∈ msd.drop k, s = "-" := by
    intro s hmem
    obtain ⟨n, hn⟩ := List.mem_iff_getElem?.mp hmem
    rw [List.getElem?_drop] at hn
    exact hd (k + n) (Nat.le_add_right _ _) s hn
  have hflat : (msd.map String.toList).flatten
      = ((msd.take k).map String.toList).flatten
        ++ List.replicate (msd.drop k).length '-' := by
    conv_lhs => rw [← List.take_append_drop k msd]
    rw [List.map_append, List.flatten_append, all_dash_flatten _ hdash]
  simp only [render]
  split
  · exact hL
  · have hb : (rstripDash (msd.map String.toList).flatten).length ≤ L := by
      rw [hflat, rstripDash_append_replicate]
      calc (rstripDash ((msd.take k).map String.toList).flatten).length
          ≤ ((msd.take k).map String.toList).flatten.length :=
            rstripDash_length_le _
        _ = ((msd.take k).map String.length).sum := by
            simp [List.length_flatten, List.map_map,
              show List.length ∘ String.toList = String.length from rfl]
        _ ≤ L := hs
    exact hb

theorem case_government_some_len (lem : String) :
    ∀ s : String, case_government lem = some s → s.length ≤ 3 := by
  unfold case_government
  repeat' apply optShort3_ite
  all_goals intro s h
  all_goals first
    | (cases Option.some.inj h; decide)
    | exact absurd h (by simp)

/-! ### Claim theorems -/

/-- C1: for every tag bundle and every lemma string, `tags_to_msd` is a total
function (it is defined by structural recursion on total operations) and
always returns a non-empty, renderable MSD string. -/
theorem tags_to_msd_total_renderable (tags : List String) (lem : String) :
    tags_to_msd tags lem ≠ "" := by
  simp only [tags_to_msd]
  exact render_ne_empty _

/-- C2 counterexample: the claim says the Roman-numeral test returns false on
the empty string, but the anchored pattern
`^M{0,4}(CM|CD|D?C{0,3})(XC|XL|L?X{0,3})(IX|IV|V?I{0,3})$` accepts the empty
match, so `is_roman ""` is true. -/
theorem is_roman_empty_string : is_roman "" = true := by decide

/-- C2 amended: the Roman-numeral test is case-insensitive and normalises the
Cyrillic homoglyphs І, Х, С, М before matching: true on "XIV", "xiv" and the
Cyrillic-homoglyph spelling of "XIV"; false on "abc"; and true (not false) on
the empty string. -/
theorem is_roman_examples :
    is_roman "XIV" = true ∧ is_roman "xiv" = true ∧ is_roman "ХІV" = true ∧
    is_roman "abc" = false ∧ is_roman "" = true := by decide

/-- C4: the bundle `[noun, anim, m, v_naz, s]` with lemma "пес" renders
exactly "Ncmsny". -/
theorem noun_example_pes :
    tags_to_msd ["noun", "anim", "m", "v_naz", "s"] "пес" = "Ncmsny" := by
  decide

/-- C6 counterexample: on the empty bundle the claim expects the placeholder
"-", but position 0 receives the fallback "X" through
`pos_map.get('', 'X')`, so the renderer yields "X". -/
theorem empty_bundle_not_placeholder :
    tags_to_msd [] "слово" = "X" ∧ tags_to_msd [] "слово" ≠ "-" := by decide

/-- C6 amended: for the empty tag bundle and any lemma, every position except
position 0 stays a placeholder, position 0 falls back to X, and the renderer
yields exactly "X". -/
theorem empty_bundle_renders_X (lem : String) : tags_to_msd [] lem = "X" := rfl

/-- C8 counterexample: the claim says the noun encoder goes plural exactly
when the plural marker `p` is present, but the bundle `[noun, ns]` has no `p`
and still renders plural at the number position (the `ns` marker also forces
plural). -/
theorem noun_ns_plural_counterexample :
    tags_to_msd ["noun", "ns"] "дрова" = "Nc-p" ∧
    ("p" ∈ (["noun", "ns"] : List String) → False) := by decide

/-- C8 amended: the numeral encoder's number slot is singular exactly when
the singular marker `s` is present and plural otherwise; the adjective and
pronoun encoders are plural exactly when the plural marker `p` is present and
singular otherwise; the noun encoder is plural exactly when `p` or the
no-singular marker `ns` is present and singular otherwise — the numeral
default direction is the opposite of the other three. -/
theorem number_position_defaults (ts : List String) (lem bp : String)
    (b adjp : Bool) :
    (process_numeral (init_msd.set 0 "M") ts lem b)[4]? =
      some (if ts.contains "s" then "s" else "p")
    ∧ (process_adjective (init_msd.set 0 "A") ts bp adjp)[4]? =
      some (if ts.contains "p" then "p" else "s")
    ∧ (process_pronoun (init_msd.set 0 "P") ts)[6]? =
      some (if ts.contains "p" then "p" else "s")
    ∧ (process_noun (init_msd.set 0 "N") ts)[3]? =
      some (if ts.contains "p" || ts.contains "ns" then "p" else "s") := by
  refine ⟨?_, ?_, ?_, ?_⟩
  · unfold process_numeral
    rw [getElem?_setOpt_ne (show 6 ≠ 4 by omega),
      getElem?_setOpt_ne (show 5 ≠ 4 by omega),
      List.getElem?_set_self]
    simp [length_setOpt, List.length_set, init_msd]
  · unfold process_adjective
    rw [getElem?_setOpt_ne (show 10 ≠ 4 by omega),
      getElem?_setOpt_ne (show 9 ≠ 4 by omega),
      getElem?_setOpt_ne (show 8 ≠ 4 by omega),
      getElem?_setOpt_ne (show 7 ≠ 4 by omega),
      getElem?_setOpt_ne (show 6 ≠ 4 by omega),
      getElem?_setOpt_ne (show 5 ≠ 4 by omega),
      List.getElem?_set_self]
    simp [length_setOpt, List.length_set, init_msd]
  · unfold process_pronoun
    rw [getElem?_setOpt_ne (show 8 ≠ 6 by omega),
      getElem?_setOpt_ne (show 7 ≠ 6 by omega),
      List.getElem?_set_self]
    simp [length_setOpt, List.length_set, init_msd]
  · unfold process_noun
    rw [getElem?_setOpt_ne (show 5 ≠ 3 by omega),
      getElem?_setOpt_ne (show 4 ≠ 3 by omega),
      List.getElem?_set_self]
    simp [length_setOpt, List.length_set, init_msd]

/-- C3 counterexample: position 0 is not limited to the eight codes plus X
(`part` renders Q), and an unrecognised first tag does not always yield X
(the pronoun marker elsewhere in the bundle still forces P). -/
theorem pos0_counterexample :
    tags_to_msd ["part"] "би" = "Q" ∧
    tags_to_msd ["zzz", "pron"] "хтось" = "P---c-s" := by decide

/-- C3 amended: position 0 of the result is always one of
N, V, A, P, R, C, M, S, Q, I or the fallback X; and when the
numeral+adjective override and the pronoun marker are absent and the first
tag maps to the fallback (unrecognised tags, the explicit `noninfl` and
`insert` entries, and the empty bundle), position 0 is X. -/
theorem tags_to_msd_pos0 (tags : List String) (lem : String) :
    (tags_to_msd tags lem).toList[0]? ∈
      (['N', 'V', 'A', 'P', 'R', 'C', 'M', 'S', 'Q', 'I', 'X'].map some)
    ∧ ((tags.contains "numr" && tags.contains "adj") = false →
       tags.contains "pron" = false →
       pos_map (tags.headD "") = "X" →
       (tags_to_msd tags lem).toList[0]? = some 'X') := by
  constructor
  · have h := pos0_of_mem tags
    simp only [List.mem_cons, List.not_mem_nil, or_false] at h
    rcases h with h | h | h | h | h | h | h | h | h | h | h <;>
      rw [tags_to_msd_head tags lem _ (by rw [h]) (by decide)] <;>
      decide
  · intro h1 h2 h3
    have hp : pos0_of tags = "X" := by
      unfold pos0_of
      rw [h1, h2, h3]
      rfl
    exact tags_to_msd_head tags lem 'X' (by rw [hp]) (by decide)

/-- C3 witness: the unrecognised first tag `zzz` (no overrides present)
renders position 0 as X. -/
theorem tags_to_msd_pos0_witness :
    (tags_to_msd ["zzz"] "слово").toList[0]? = some 'X' :=
  (tags_to_msd_pos0 ["zzz"] "слово").2 rfl rfl rfl

/-! ### Positional values of the numeral block -/

theorem process_numeral_getElem_one (msd ts : List String) (lem : String)
    (b : Bool) (h : 1 < msd.length) :
    (process_numeral msd ts lem b)[1]? =
      some (if is_number lem then "d"
            else if is_roman lem then "r"
            else "l") := by
  unfold process_numeral
  rw [getElem?_setOpt_ne (show 6 ≠ 1 by omega),
    getElem?_setOpt_ne (show 5 ≠ 1 by omega),
    List.getElem?_set_ne (show 4 ≠ 1 by omega),
    getElem?_setOpt_ne (show 3 ≠ 1 by omega),
    List.getElem?_set_ne (show 2 ≠ 1 by omega),
    List.getElem?_set_self h]

theorem process_numeral_getElem_two (msd ts : List String) (lem : String)
    (b : Bool) (h : 2 < msd.length) :
    (process_numeral msd ts lem b)[2]? = some (if b then "o" else "c") := by
  unfold process_numeral
  rw [getElem?_setOpt_ne (show 6 ≠ 2 by omega),
    getElem?_setOpt_ne (show 5 ≠ 2 by omega),
    List.getElem?_set_ne (show 4 ≠ 2 by omega),
    getElem?_setOpt_ne (show 3 ≠ 2 by omega),
    List.getElem?_set_self (by simpa using h)]

/-- Characters 0 and 2 of the concatenated template, when the first three
slots hold one character each. -/
theorem flat_getElem_two (msd : List String) (s0 s1 s2 : String)
    (c0 c1 c2 : Char) (h0 : msd[0]? = some s0) (h1 : msd[1]? = some s1)
    (h2 : msd[2]? = some s2) (t0 : s0.toList = [c0]) (t1 : s1.toList = [c1])
    (t2 : s2.toList = [c2]) :
    ((msd.map String.toList).flatten)[0]? = some c0 ∧
    ((msd.map String.toList).flatten)[2]? = some c2 := by
  cases msd with
  | nil => simp at h0
  | cons a t =>
    cases t with
    | nil => simp at h1
    | cons a1 t1l =>
      cases t1l with
      | nil => simp at h2
      | cons a2 t2l =>
        simp only [List.getElem?_cons_zero, List.getElem?_cons_succ,
          Option.some.injEq] at h0 h1 h2
        subst h0 h1 h2
        have d0 : a.data = [c0] := t0
        have d1 : a1.data = [c1] := t1
        have d2 : a2.data = [c2] := t2
        simp [d0, d1, d2]

/-- C5: whenever the bundle holds both the numeral marker and the adjective
marker, whatever else it holds, position 0 of the rendered code is M and the
type position (position 2) is the ordinal letter o. -/
theorem numeral_adjective_override (tags : List String) (lem : String)
    (hne : tags ≠ []) (hn : tags.contains "numr" = true)
    (ha : tags.contains "adj" = true) :
    (tags_to_msd tags lem).toList[0]? = some 'M' ∧
    (tags_to_msd tags lem).toList[2]? = some 'o' := by
  have hp : pos0_of tags = "M" := by
    unfold pos0_of
    rw [hn, ha]
    rfl
  constructor
  · exact tags_to_msd_head tags lem 'M' (by rw [hp]) (by decide)
  · simp only [tags_to_msd, hp, ha]
    rw [if_neg (by decide), if_neg (by decide), if_neg (by decide),
      if_neg (by decide), if_neg (by decide), if_neg (by decide)]
    rw [if_pos trivial]
    have hlen : 2 < (init_msd.set 0 "M").length := by simp [init_msd]
    have h0 : (process_numeral (init_msd.set 0 "M") tags lem true)[0]? =
        some "M" := by
      rw [process_numeral_outside _ _ _ _ 0 (Or.inl rfl)]
      exact init_set_getElem0 _
    have h1 := process_numeral_getElem_one (init_msd.set 0 "M") tags lem true
      (by simp [init_msd])
    have h2 := process_numeral_getElem_two (init_msd.set 0 "M") tags lem true
      hlen
    obtain ⟨c1, hc1⟩ : ∃ c, (if is_number lem then "d"
        else if is_roman lem then "r" else "l").toList = [c] := by
      split_ifs <;> exact ⟨_, rfl⟩
    have hflat := flat_getElem_two _ "M" _ "o" 'M' c1 'o' h0 h1 h2 rfl hc1 rfl
    rw [render_toList_getElem? _ 2 'o' hflat.2 (by decide) 2 le_rfl, hflat.2]

/-- C5 witness at the bundle `[numr, adj]` with lemma "три". -/
theorem numeral_adjective_override_witness :
    (tags_to_msd ["numr", "adj"] "три").toList[0]? = some 'M' ∧
    (tags_to_msd ["numr", "adj"] "три").toList[2]? = some 'o' :=
  numeral_adjective_override ["numr", "adj"] "три" (by decide) rfl rfl

/-- C7: the preposition case-government slot comes from exact lemma lookup:
the lemma "в" renders the full code "Spsagl" (multi-letter case set "agl"),
and any lemma missing from the table puts the default genitive letter g at
position 3 of the rendered code. -/
theorem preposition_case_government :
    tags_to_msd ["prep"] "в" = "Spsagl" ∧
    ∀ (tags : List String) (lem : String), pos0_of tags = "S" →
      case_government lem = none →
      (tags_to_msd tags lem).toList[3]? = some 'g' := by
  constructor
  · decide
  · intro tags lem hp hnone
    simp only [tags_to_msd, hp]
    rw [if_neg (by decide), if_neg (by decide), if_neg (by decide),
      if_neg (by decide), if_neg (by decide), if_neg (by decide),
      if_neg (by decide)]
    rw [if_pos trivial]
    simp only [process_preposition, hnone, Option.getD_none]
    by_cases hc : lem.toList.contains '-' = true
    · rw [if_pos hc]
      decide
    · rw [if_neg hc]
      decide

/-- C7 witness at the unlisted lemma "довкола". -/
theorem preposition_case_government_witness :
    (tags_to_msd ["prep"] "довкола").toList[3]? = some 'g' :=
  preposition_case_government.2 ["prep"] "довкола" rfl rfl

/-- C9: the code depends on the bundle only through membership tests and the
first element: two non-empty bundles with the same head and the same set of
members (any reordering or duplication of the later tags) render the same
code for every lemma. -/
theorem tags_to_msd_set_semantics (t1 t2 : List String) (lem : String)
    (h1 : t1 ≠ []) (h2 : t2 ≠ []) (hh : t1.head? = t2.head?)
    (hm : ∀ s : String, s ∈ t1 ↔ s ∈ t2) :
    tags_to_msd t1 lem = tags_to_msd t2 lem := by
  have hc : ∀ s : String, t1.contains s = t2.contains s := by
    intro s
    by_cases hs : s ∈ t1
    · simp [hs, (hm s).mp hs]
    · have hs2 : s ∉ t2 := fun h => hs ((hm s).mpr h)
      simp [hs, hs2]
  have hhd : t1.headD "" = t2.headD "" := by
    rw [List.headD_eq_head?, List.headD_eq_head?, hh]
  simp only [tags_to_msd, pos0_of, process_noun, process_verb,
    process_adjective, process_pronoun, process_adverb, process_conjunction,
    process_numeral, process_preposition, hc, hhd]

/-- C9 witness: a reordered bundle with a duplicated tag renders the same
code. -/
theorem tags_to_msd_set_semantics_witness :
    tags_to_msd ["noun", "anim", "m"] "кіт" =
      tags_to_msd ["noun", "m", "anim", "anim"] "кіт" :=
  tags_to_msd_set_semantics ["noun", "anim", "m"]
    ["noun", "m", "anim", "anim"] "кіт" (by decide) (by decide) rfl
    (by intro s; constructor <;> intro h <;> simp [List.mem_cons] at h ⊢ <;>
      tauto)

/-- C10: the rendered code is never empty and never longer than 11
characters: no encoder writes past position 10, and only the preposition
block writes more than one character into a slot (at most three, with
everything after position 3 left as placeholders). -/
theorem tags_to_msd_length_bounds (tags : List String) (lem : String) :
    1 ≤ (tags_to_msd tags lem).length ∧
    (tags_to_msd tags lem).length ≤ 11 := by
  constructor
  · simp only [tags_to_msd]
    exact render_length_pos _
  · simp only [tags_to_msd]
    have hplen : (pos0_of tags).length = 1 := pos0_of_length tags
    have hshort0 : ShortAll (init_msd.set 0 (pos0_of tags)) :=
      shortAll_init_set (le_of_eq hplen)
    split_ifs with hN hV hA hP hR hC hM hS
    · apply render_length_le _ 11 11 (by omega)
      · intro j hj s hs
        rw [process_noun_outside _ _ j (Or.inr hj)] at hs
        exact init_set_dash _ j (by omega) s hs
      · exact le_trans
          (sum_take_len_le _ 11 (process_noun_short _ _ hshort0)) (by omega)
    · apply render_length_le _ 11 11 (by omega)
      · intro j hj s hs
        rw [process_verb_outside _ _ _ j (Or.inr hj)] at hs
        exact init_set_dash _ j (by omega) s hs
      · exact le_trans
          (sum_take_len_le _ 11 (process_verb_short _ _ _ hshort0)) (by omega)
    · apply render_length_le _ 11 11 (by omega)
      · intro j hj s hs
        rw [process_adjective_outside _ _ _ _ j (Or.inr hj)] at hs
        exact init_set_dash _ j (by omega) s hs
      · exact le_trans
          (sum_take_len_le _ 11 (process_adjective_short _ _ _ _ hshort0))
          (by omega)
    · apply render_length_le _ 11 11 (by omega)
      · intro j hj s hs
        rw [process_pronoun_outside _ _ j (Or.inr hj)] at hs
        exact init_set_dash _ j (by omega) s hs
      · exact le_trans
          (sum_take_len_le _ 11 (process_pronoun_short _ _ hshort0))
          (by omega)
    · apply render_length_le _ 11 11 (by omega)
      · intro j hj s hs
        rw [process_adverb_outside _ _ j (Or.inr hj)] at hs
        exact init_set_dash _ j (by omega) s hs
      · exact le_trans
          (sum_take_len_le _ 11 (process_adverb_short _ _ hshort0))
          (by omega)
    · apply render_length_le _ 11 11 (by omega)
      · intro j hj s hs
        rw [process_conjunction_outside _ _ _ j (Or.inr hj)] at hs
        exact init_set_dash _ j (by omega) s hs
      · exact le_trans
          (sum_take_len_le _ 11 (process_conjunction_short _ _ _ hshort0))
          (by omega)
    · apply render_length_le _ 11 11 (by omega)
      · intro j hj s hs
        rw [process_numeral_outside _ _ _ _ j (Or.inr hj)] at hs
        exact init_set_dash _ j (by omega) s hs
      · exact le_trans
          (sum_take_len_le _ 11 (process_numeral_short _ _ _ _ hshort0))
          (by omega)
    · apply render_length_le _ 4 11 (by omega)
      · intro j hj s hs
        rw [process_preposition_outside _ _ _ j (Or.inr hj)] at hs
        exact init_set_dash _ j (by omega) s hs
      · rw [hS]
        simp only [process_preposition]
        have hf : (if lem.toList.contains '-' = true then "c"
            else "s").length ≤ 1 := ite_len (by decide) (by decide)
        have hg : ((case_government lem).getD "g").length ≤ 3 := by
          cases hcg : case_government lem with
          | none => decide
          | some t => simpa using case_government_some_len lem t hcg
        have hexp : (((init_msd.set 0 "S").set 1 "p").set 2
              (if lem.toList.contains '-' = true then "c" else "s")).set 3
              ((case_government lem).getD "g")
            = ["S", "p", (if lem.toList.contains '-' = true then "c"
                else "s"), (case_government lem).getD "g"]
              ++ List.replicate 11 "-" := rfl
        rw [hexp]
        simp only [List.cons_append, List.nil_append, List.take_succ_cons,
          List.take_zero, List.map_cons, List.map_nil, List.sum_cons,
          List.sum_nil]
        have hl1 : ("S" : String).length = 1 := rfl
        have hl2 : ("p" : String).length = 1 := rfl
        omega
    · apply render_length_le _ 11 11 (by omega)
      · intro j hj s hs
        exact init_set_dash _ j (by omega) s hs
      · exact le_trans (sum_take_len_le _ 11 hshort0) (by omega)

end DictUk2Multext
